import Mathlib

/-!
Verification development for the Hyperware chat core
(src/chat/src/lib.rs). The Rust data model and the operations of the
message-delivery and session-multiplexing subsystem are shallowly
embedded as executable Lean definitions; hash maps are modelled as
association lists whose operations mirror the first-occurrence
semantics of the Rust code, and external collaborators (VFS, network
delivery, the clock) are passed in as explicit parameters.
-/

/-- Message delivery status, from enum MessageStatus. -/
inductive MessageStatus where
  | Sending
  | Sent
  | Delivered
  | Failed
deriving DecidableEq

/-- A reaction on a message, from struct MessageReaction. -/
structure MessageReaction where
  emoji : String
  user : String
  timestamp : Nat
deriving DecidableEq

/-- Kind of a message, from enum MessageType. -/
inductive MessageType where
  | Text
  | Image
  | File
  | VoiceNote
deriving DecidableEq

/-- File metadata attached to a message, from struct FileInfo. -/
structure FileInfo where
  filename : String
  mime_type : String
  size : Nat
  url : String
deriving DecidableEq

/-- A chat message, from struct ChatMessage. -/
structure ChatMessage where
  id : String
  sender : String
  content : String
  timestamp : Nat
  status : MessageStatus
  reply_to : Option String
  reactions : List MessageReaction
  message_type : MessageType
  file_info : Option FileInfo
deriving DecidableEq

/-- A 1:1 chat record, from struct Chat. -/
structure Chat where
  id : String
  counterparty : String
  messages : List ChatMessage
  last_activity : Nat
  unread_count : Nat
  is_blocked : Bool
  notify : Bool
deriving DecidableEq

/-- A browser-chat capability key, from struct ChatKey. -/
structure ChatKey where
  key : String
  user_name : String
  created_at : Nat
  is_revoked : Bool
  chat_id : String
deriving DecidableEq

/-- The chat store: HashMap String Chat modelled as an association list. -/
abbrev ChatStore := List (String × Chat)

/-- The delivery queue: HashMap String (Vec ChatMessage) as an association list. -/
abbrev DeliveryQueue := List (String × List ChatMessage)

/-- Lookup of the first entry with the given key in an association list
(HashMap get; real hash maps hold each key at most once). -/
def alistFind? {α : Type} (l : List (String × α)) (k : String) : Option α :=
  match l with
  | [] => none
  | p :: rest => if p.1 == k then some p.2 else alistFind? rest k

/-- True when the association list holds the key (HashMap contains_key). -/
def alistContains {α : Type} (l : List (String × α)) (k : String) : Bool :=
  l.any (fun p => p.1 == k)

/-- HashMap insert: replace the first entry with the key, else append. -/
def alistInsert {α : Type} (l : List (String × α)) (k : String) (v : α) :
    List (String × α) :=
  match l with
  | [] => [(k, v)]
  | p :: rest => if p.1 == k then (k, v) :: rest else p :: alistInsert rest k v

/-- Apply f to the value of the first entry with the key, if present
(HashMap get_mut followed by a mutation). -/
def alistModify {α : Type} (l : List (String × α)) (k : String) (f : α → α) :
    List (String × α) :=
  match l with
  | [] => []
  | p :: rest =>
      if p.1 == k then (p.1, f p.2) :: rest else p :: alistModify rest k f

/-- HashMap remove: drop the entries with the key. -/
def alistErase {α : Type} (l : List (String × α)) (k : String) :
    List (String × α) :=
  l.filter (fun p => p.1 != k)

/-- One-way status transition enforcement, from fn safe_update_message_status.
Legal forward moves adopt the requested status; terminal or backward pairs
log a warning and keep the current status; the function is total and never
returns an error. -/
def safe_update_message_status (current : MessageStatus) (new : MessageStatus) :
    MessageStatus :=
  match current, new with
  | .Sending, .Sent => new
  | .Sending, .Delivered => new
  | .Sending, .Failed => new
  | .Sent, .Delivered => new
  | .Sent, .Failed => new
  | .Delivered, _ => current
  | .Failed, _ => current
  | _, _ => current

/-- The set of legal forward transitions named by claim C3. -/
def validTransition (current requested : MessageStatus) : Prop :=
  (current = .Sending ∧
    (requested = .Sent ∨ requested = .Delivered ∨ requested = .Failed)) ∨
  (current = .Sent ∧ (requested = .Delivered ∨ requested = .Failed))

instance (c r : MessageStatus) : Decidable (validTransition c r) := by
  unfold validTransition; infer_instance

/-- Canonical chat id for a pair of node identities, from fn normalize_chat_id:
the lexicographically smaller identity first, joined by a colon. -/
def normalize_chat_id (node1 node2 : String) : String :=
  if node1 < node2 then node1 ++ ":" ++ node2 else node2 ++ ":" ++ node1

/-- C3 counterexample: the claimed equivalence "transition(current, requested)
= requested exactly when the pair is a legal forward move" is false: at the
terminal pair (Delivered, Delivered) the function returns the current status,
which happens to equal the requested one although the pair is not a legal
forward move. -/
theorem c3_transition_iff_false :
    ¬ (∀ c r : MessageStatus,
      safe_update_message_status c r = r ↔ validTransition c r) := by
  intro h
  have := (h .Delivered .Delivered).mp rfl
  simp [validTransition] at this

/-- C3 (amended): the transition function is total, adopts the requested
status on every legal forward move, returns the current status unchanged in
every other case, and its result equals the requested status exactly when the
pair is a legal forward move or the requested status already equals the
current one. -/
theorem c3_transition_table (c r : MessageStatus) :
    (validTransition c r → safe_update_message_status c r = r) ∧
    (¬ validTransition c r → safe_update_message_status c r = c) ∧
    (safe_update_message_status c r = r ↔ validTransition c r ∨ c = r) := by
  cases c <;> cases r <;> decide

/-- Witness for c3_transition_table at the concrete pair (Sending, Sent). -/
theorem c3_transition_table_witness :
    safe_update_message_status .Sending .Sent = .Sent :=
  (c3_transition_table .Sending .Sent).1 (Or.inl ⟨rfl, Or.inl rfl⟩)

/-- C4: chat-id normalization is order-independent and equals the
lexicographic minimum, a colon, then the maximum, so both peers compute the
identical chat id without coordination. -/
theorem c4_normalize_chat_id_comm_min_max (a b : String) :
    normalize_chat_id a b = normalize_chat_id b a ∧
    normalize_chat_id a b = min a b ++ ":" ++ max a b := by
  unfold normalize_chat_id
  rcases lt_trichotomy a b with h | h | h
  · rw [if_pos h, if_neg (asymm h), min_eq_left h.le, max_eq_right h.le]
    exact ⟨rfl, rfl⟩
  · subst h
    simp
  · rw [if_neg (asymm h), if_pos h, min_eq_right h.le, max_eq_left h.le]
    exact ⟨rfl, rfl⟩

/-- User profile, from struct UserProfile. -/
structure UserProfile where
  name : String
  profile_pic : Option String
deriving DecidableEq

/-- Server-to-client WebSocket frames, from enum WsServerMessage. -/
inductive WsServerMessage where
  | NewMessage (message : ChatMessage)
  | MessageAck (message_id : String)
  | StatusUpdate (node : String) (status : String)
  | ChatUpdate (chat : Chat)
  | ProfileUpdate (node : String) (profile : UserProfile)
  | AuthSuccess (chat_id : String) (history : List ChatMessage)
  | AuthFailed (reason : String)
  | Heartbeat
  | Error (message : String)
deriving DecidableEq

/-- A fresh Chat record as built at the creation sites in lib.rs (empty
history, zero unread, unblocked, notifications on). -/
def new_chat (cid cp : String) (ts : Nat) : Chat :=
  { id := cid, counterparty := cp, messages := [], last_activity := ts,
    unread_count := 0, is_blocked := false, notify := true }

/-- Delivery-queue enqueue, from queue.entry(cp).or_insert_with(Vec::new)
.push(msg). -/
def queueEnqueue (q : DeliveryQueue) (k : String) (m : ChatMessage) :
    DeliveryQueue :=
  if alistContains q k then alistModify q k (fun ms => ms ++ [m])
  else q ++ [(k, [m])]

/-- The flush loop spawned by receive_chat_creation: attempt each queued
message in order against the delivery oracle; on the first failure re-queue
exactly that message and stop (the later messages are dropped with it removed
from the queue). Returns the messages that are re-added to the queue. -/
def flush_attempts (msgs : List ChatMessage) (deliverOk : ChatMessage → Bool) :
    List ChatMessage :=
  match msgs with
  | [] => []
  | m :: rest => if deliverOk m then flush_attempts rest deliverOk else [m]

/-- Remote handler receive_chat_creation: computes the normalized chat id,
creates the Chat only when absent (announcing an existing chat leaves the
chat store untouched), pushes a ChatUpdate to node sessions on creation,
then removes the announcing counterparty's queued messages and re-attempts
them (deliverOk is the network oracle). -/
def receive_chat_creation (chats : ChatStore) (q : DeliveryQueue)
    (wsConns : List (Nat × String)) (counterparty ourNode : String) (ts : Nat)
    (deliverOk : ChatMessage → Bool) :
    ChatStore × DeliveryQueue × List (Nat × WsServerMessage) :=
  let chat_id := normalize_chat_id counterparty ourNode
  let createPart :=
    if alistContains chats chat_id then (chats, [])
    else
      let chat := new_chat chat_id counterparty ts
      (alistInsert chats chat_id chat,
        wsConns.map (fun p => (p.1, WsServerMessage.ChatUpdate chat)))
  let queued := (alistFind? q counterparty).getD []
  let q1 := alistErase q counterparty
  let q2 := (flush_attempts queued deliverOk).foldl
    (fun qq m => queueEnqueue qq counterparty m) q1
  (createPart.1, q2, createPart.2)

/-- The stored form of an inbound message: receive_message force-advances the
wire status via the status machine to Delivered, and the VFS persistence of
an attached file only ever rewrites file_info.url; that external interaction
is the saveUrl oracle (identity for images and failed saves, the local /files
path otherwise). -/
def receive_message_upd (message : ChatMessage) (saveUrl : FileInfo → String) :
    ChatMessage :=
  let upd0 := { message with
    status := safe_update_message_status message.status .Delivered }
  { upd0 with
    file_info := upd0.file_info.map (fun fi => { fi with url := saveUrl fi }) }

/-- The Chat record receive_message leaves under the normalized id: the
existing chat (or a fresh one) with the delivered message appended, the
last-activity timestamp refreshed and the unread count bumped by one. -/
def receive_message_chat (chats : ChatStore) (ourNode : String)
    (message : ChatMessage) (saveUrl : FileInfo → String) : Chat :=
  let chat_id := normalize_chat_id message.sender ourNode
  let base := (alistFind? chats chat_id).getD
    (new_chat chat_id message.sender message.timestamp)
  let upd := receive_message_upd message saveUrl
  { base with
    messages := base.messages ++ [upd],
    last_activity := upd.timestamp,
    unread_count := base.unread_count + 1 }

/-- Remote handler receive_message: resolves or creates the Chat under the
normalized id of (sender, local node), appends the delivered message, fans
the new message (preceded by a ChatUpdate when the chat is new) out to node
sessions, and answers with an ack addressed to the sender carrying the
message id (the last two components of the result). -/
def receive_message (chats : ChatStore) (wsConns : List (Nat × String))
    (ourNode : String) (message : ChatMessage) (saveUrl : FileInfo → String) :
    ChatStore × List (Nat × WsServerMessage) × String × String :=
  let chat_id := normalize_chat_id message.sender ourNode
  let is_new_chat := !(alistContains chats chat_id)
  let upd := receive_message_upd message saveUrl
  let chat' := receive_message_chat chats ourNode message saveUrl
  let pushes := wsConns.flatMap (fun p =>
    (if is_new_chat then [(p.1, WsServerMessage.ChatUpdate chat')] else [])
      ++ [(p.1, WsServerMessage.NewMessage upd)])
  (alistInsert chats chat_id chat', pushes, message.sender, message.id)

theorem alistContains_insert_self {α : Type} (l : List (String × α))
    (k : String) (v : α) : alistContains (alistInsert l k v) k = true := by
  induction l with
  | nil => simp [alistInsert, alistContains]
  | cons p rest ih =>
      by_cases h : p.1 = k
      · simp [alistInsert, alistContains, h]
      · simp only [alistInsert, beq_iff_eq, if_neg h]
        simpa [alistContains, h] using ih

theorem alistFind?_insert_self {α : Type} (l : List (String × α))
    (k : String) (v : α) : alistFind? (alistInsert l k v) k = some v := by
  induction l with
  | nil => simp [alistInsert, alistFind?]
  | cons p rest ih =>
      by_cases h : p.1 = k
      · simp [alistInsert, alistFind?, h]
      · simp [alistInsert, alistFind?, h, ih]

theorem alistFind?_insert_ne {α : Type} (l : List (String × α))
    (k j : String) (v : α) (h : j ≠ k) :
    alistFind? (alistInsert l k v) j = alistFind? l j := by
  induction l with
  | nil => simp [alistInsert, alistFind?, Ne.symm h]
  | cons p rest ih =>
      by_cases hp : p.1 = k
      · simp [alistInsert, alistFind?, hp, Ne.symm h]
      · by_cases hj : p.1 = j
        · simp [alistInsert, alistFind?, hp, hj, h]
        · simp [alistInsert, alistFind?, hp, hj, h, ih]

/-- C6: announcing the same chat creation twice yields exactly one Chat
record: the second call leaves the chat store exactly as the first left it,
and when the chat already exists the handler does not change the store at
all — idempotence of receive_chat_creation on the Chat Store. -/
theorem c6_receive_chat_creation_idempotent (chats : ChatStore)
    (q q2 : DeliveryQueue) (wsConns wsConns2 : List (Nat × String))
    (cp our : String) (ts ts2 : Nat) (ok ok2 : ChatMessage → Bool) :
    (receive_chat_creation
        (receive_chat_creation chats q wsConns cp our ts ok).1
        q2 wsConns2 cp our ts2 ok2).1
      = (receive_chat_creation chats q wsConns cp our ts ok).1 ∧
    (alistContains chats (normalize_chat_id cp our) = true →
      (receive_chat_creation chats q wsConns cp our ts ok).1 = chats) := by
  constructor
  · by_cases h : alistContains chats (normalize_chat_id cp our) = true
    · simp [receive_chat_creation, h]
    · have h' : alistContains chats (normalize_chat_id cp our) = false := by
        simpa using h
      simp [receive_chat_creation, h', alistContains_insert_self]
  · intro h
    simp [receive_chat_creation, h]

/-- Evaluation of the normalized id for the sample identities used by the
witnesses: a.os sorts lexicographically before b.os. -/
theorem normalize_chat_id_sample :
    normalize_chat_id "a.os" "b.os" = "a.os:b.os" := by
  unfold normalize_chat_id
  rw [if_pos (by rw [String.lt_iff_toList_lt]; decide)]
  rfl

/-- Witness for c6_receive_chat_creation_idempotent: a store already holding
the chat for the pair (a.os, b.os) is returned unchanged. -/
theorem c6_receive_chat_creation_idempotent_witness :
    (receive_chat_creation [("a.os:b.os", new_chat "a.os:b.os" "a.os" 5)]
        [] [] "a.os" "b.os" 7 (fun _ => true)).1
      = [("a.os:b.os", new_chat "a.os:b.os" "a.os" 5)] :=
  (c6_receive_chat_creation_idempotent
      [("a.os:b.os", new_chat "a.os:b.os" "a.os" 5)]
      [] [] [] [] "a.os" "b.os" 7 7 (fun _ => true) (fun _ => true)).2
    (by rw [normalize_chat_id_sample]; decide)

/-- C5: an inbound message whose wire status is non-terminal (Sending or
Sent) is stored with status Delivered: receive_message appends it to the chat
keyed by the normalized id of (sender, local node) — creating that chat when
absent — and increases that chat's message count by exactly one and its
unread count by exactly one. -/
theorem c5_receive_message_delivers (chats : ChatStore)
    (wsConns : List (Nat × String)) (our : String) (message : ChatMessage)
    (saveUrl : FileInfo → String)
    (h : message.status = .Sending ∨ message.status = .Sent) :
    ∃ chat',
      alistFind? (receive_message chats wsConns our message saveUrl).1
          (normalize_chat_id message.sender our) = some chat' ∧
      chat'.messages.length
        = ((alistFind? chats (normalize_chat_id message.sender our)).map
            (fun c => c.messages.length)).getD 0 + 1 ∧
      chat'.unread_count
        = ((alistFind? chats (normalize_chat_id message.sender our)).map
            (fun c => c.unread_count)).getD 0 + 1 ∧
      ∃ m, chat'.messages.getLast? = some m ∧ m.id = message.id ∧
        m.sender = message.sender ∧ m.status = .Delivered := by
  refine ⟨receive_message_chat chats our message saveUrl, ?_, ?_, ?_, ?_⟩
  · exact alistFind?_insert_self chats _ _
  · cases hf : alistFind? chats (normalize_chat_id message.sender our) <;>
      simp [receive_message_chat, hf, new_chat]
  · cases hf : alistFind? chats (normalize_chat_id message.sender our) <;>
      simp [receive_message_chat, hf, new_chat]
  · refine ⟨receive_message_upd message saveUrl, ?_, rfl, rfl, ?_⟩
    · simp [receive_message_chat]
    · rcases h with h | h <;>
        simp [receive_message_upd, h, safe_update_message_status]

/-- A sample text message from node a.os, used by witnesses. -/
def sample_message : ChatMessage :=
  { id := "100:7", sender := "a.os", content := "hi", timestamp := 100,
    status := .Sending, reply_to := none, reactions := [],
    message_type := .Text, file_info := none }

/-- Witness for c5_receive_message_delivers: node b.os receives
sample_message (wire status Sending) into an empty store. -/
theorem c5_receive_message_delivers_witness :
    ∃ chat',
      alistFind? (receive_message [] [] "b.os" sample_message
            (fun fi => fi.url)).1
          (normalize_chat_id sample_message.sender "b.os") = some chat' ∧
      chat'.messages.length
        = ((alistFind? ([] : ChatStore)
              (normalize_chat_id sample_message.sender "b.os")).map
            (fun c => c.messages.length)).getD 0 + 1 ∧
      chat'.unread_count
        = ((alistFind? ([] : ChatStore)
              (normalize_chat_id sample_message.sender "b.os")).map
            (fun c => c.unread_count)).getD 0 + 1 ∧
      ∃ m, chat'.messages.getLast? = some m ∧ m.id = sample_message.id ∧
        m.sender = sample_message.sender ∧ m.status = .Delivered :=
  c5_receive_message_delivers [] [] "b.os" sample_message
    (fun fi => fi.url) (Or.inl rfl)

/-- Update the first message satisfying p (Vec::iter_mut().find followed by a
mutation of the found element); none when no message matches. -/
def update_first_msg (msgs : List ChatMessage) (p : ChatMessage → Bool)
    (f : ChatMessage → ChatMessage) : Option (List ChatMessage) :=
  match msgs with
  | [] => none
  | m :: rest =>
      if p m then some (f m :: rest)
      else (update_first_msg rest p f).map (fun ms => m :: ms)

/-- From fn receive_message_ack: scan the chats in order; in the first chat
holding a message with the acked id whose sender is the local node, advance
exactly that message's status via the status machine to Delivered and stop;
when no chat holds such a message, change nothing. -/
def ack_store (chats : ChatStore) (our mid : String) : ChatStore :=
  match chats with
  | [] => []
  | (k, c) :: rest =>
      match update_first_msg c.messages
          (fun m => m.id == mid && m.sender == our)
          (fun m =>
            { m with status := safe_update_message_status m.status .Delivered })
        with
      | some msgs => (k, { c with messages := msgs }) :: rest
      | none => (k, c) :: ack_store rest our mid

/-- Remote handler receive_message_ack: mutates the store as ack_store and
returns Ok on every path (a missing message is not an error). -/
def receive_message_ack (chats : ChatStore) (our mid : String) :
    Except String ChatStore :=
  Except.ok (ack_store chats our mid)

/-- True when some message in the list has the acked id and the local sender. -/
def msgs_has_ack_match (msgs : List ChatMessage) (our mid : String) : Bool :=
  msgs.any (fun m => m.id == mid && m.sender == our)

/-- True when some chat holds a message with the acked id and local sender. -/
def store_has_ack_match (chats : ChatStore) (our mid : String) : Bool :=
  chats.any (fun kc => msgs_has_ack_match kc.2.messages our mid)

theorem update_first_msg_eq_none (msgs : List ChatMessage)
    (p : ChatMessage → Bool) (f : ChatMessage → ChatMessage) :
    update_first_msg msgs p f = none ↔ msgs.any p = false := by
  induction msgs with
  | nil => simp [update_first_msg]
  | cons m rest ih =>
      by_cases h : p m
      · simp [update_first_msg, h]
      · simp [update_first_msg, h, ih]

theorem update_first_msg_eq_some (msgs : List ChatMessage)
    (p : ChatMessage → Bool) (f : ChatMessage → ChatMessage)
    (h : msgs.any p = true) :
    ∃ ms1 m ms2, msgs = ms1 ++ m :: ms2 ∧ ms1.any p = false ∧ p m = true ∧
      update_first_msg msgs p f = some (ms1 ++ f m :: ms2) := by
  induction msgs with
  | nil => simp at h
  | cons m rest ih =>
      by_cases hm : p m
      · exact ⟨[], m, rest, rfl, rfl, hm, by simp [update_first_msg, hm]⟩
      · have hr : rest.any p = true := by simpa [hm] using h
        obtain ⟨ms1, m', ms2, hdec, hnone, hp, hupd⟩ := ih hr
        exact ⟨m :: ms1, m', ms2, by simp [hdec], by simp [hm, hnone],
          hp, by simp [update_first_msg, hm, hupd]⟩

/-- C8: receive_message_ack never returns an error; when no chat holds a
message with the acked id sent by the local node it mutates nothing; when
one does, the store decomposes so that exactly the first such message has
its status advanced via the status machine to Delivered and every other
chat and message — and every other field of that message — is unchanged. -/
theorem c8_receive_message_ack_frame (chats : ChatStore) (our mid : String) :
    receive_message_ack chats our mid = Except.ok (ack_store chats our mid) ∧
    (store_has_ack_match chats our mid = false →
      ack_store chats our mid = chats) ∧
    (store_has_ack_match chats our mid = true →
      ∃ pre k c suf ms1 m ms2,
        chats = pre ++ (k, c) :: suf ∧
        store_has_ack_match pre our mid = false ∧
        c.messages = ms1 ++ m :: ms2 ∧
        msgs_has_ack_match ms1 our mid = false ∧
        m.id = mid ∧ m.sender = our ∧
        ack_store chats our mid
          = pre ++ (k, { c with messages := ms1 ++
              { m with
                status := safe_update_message_status m.status .Delivered }
                :: ms2 }) :: suf) := by
  refine ⟨rfl, ?_, ?_⟩
  · intro h
    induction chats with
    | nil => rfl
    | cons kc rest ih =>
        obtain ⟨k, c⟩ := kc
        have hc : msgs_has_ack_match c.messages our mid = false := by
          by_contra hcc
          simp [store_has_ack_match, msgs_has_ack_match] at h hcc
          obtain ⟨m, hm, h1, h2⟩ := hcc
          exact (h.1 m hm h1) h2
        have hrest : store_has_ack_match rest our mid = false := by
          simp [store_has_ack_match] at h ⊢
          exact h.2
        have hnone := (update_first_msg_eq_none c.messages
          (fun m => m.id == mid && m.sender == our)
          (fun m =>
            { m with
              status := safe_update_message_status m.status .Delivered })).mpr
          (by simpa [msgs_has_ack_match] using hc)
        simp [ack_store, hnone, ih hrest]
  · intro h
    induction chats with
    | nil => simp [store_has_ack_match] at h
    | cons kc rest ih =>
        obtain ⟨k, c⟩ := kc
        by_cases hc : msgs_has_ack_match c.messages our mid = true
        · obtain ⟨ms1, m, ms2, hdec, hnone, hp, hupd⟩ :=
            update_first_msg_eq_some c.messages
              (fun m => m.id == mid && m.sender == our)
              (fun m =>
                { m with
                  status := safe_update_message_status m.status .Delivered })
              (by simpa [msgs_has_ack_match] using hc)
          simp only [Bool.and_eq_true, beq_iff_eq] at hp
          refine ⟨[], k, c, rest, ms1, m, ms2, rfl, rfl, hdec,
            by simpa [msgs_has_ack_match] using hnone, hp.1, hp.2, ?_⟩
          simp [ack_store, hupd]
        · have hcf : msgs_has_ack_match c.messages our mid = false := by
            simpa using hc
          have hrest : store_has_ack_match rest our mid = true := by
            simpa [store_has_ack_match, hcf] using h
          obtain ⟨pre, k', c', suf, ms1, m, ms2, hdec, hprenone, hmdec,
            hmsnone, hid, hsend, hack⟩ := ih hrest
          have hnone := (update_first_msg_eq_none c.messages
            (fun m => m.id == mid && m.sender == our)
            (fun m =>
              { m with
                status := safe_update_message_status m.status .Delivered })).mpr
            (by simpa [msgs_has_ack_match] using hcf)
          refine ⟨(k, c) :: pre, k', c', suf, ms1, m, ms2, by simp [hdec],
            by
              simp [store_has_ack_match, hcf]
              simpa [store_has_ack_match] using hprenone,
            hmdec, hmsnone, hid, hsend, ?_⟩
          simp [ack_store, hnone, hack]

/-- Witness for c8_receive_message_ack_frame: acking an id never sent from
this node leaves the store untouched and reports no error. -/
theorem c8_receive_message_ack_frame_witness :
    ack_store [("a.os:b.os", new_chat "a.os:b.os" "a.os" 5)] "b.os" "100:7"
      = [("a.os:b.os", new_chat "a.os:b.os" "a.os" 5)] :=
  (c8_receive_message_ack_frame
      [("a.os:b.os", new_chat "a.os:b.os" "a.os" 5)] "b.os" "100:7").2.1
    (by decide)

theorem alistFind?_modify_self {α : Type} (l : List (String × α))
    (k : String) (f : α → α) :
    alistFind? (alistModify l k f) k = (alistFind? l k).map f := by
  induction l with
  | nil => simp [alistModify, alistFind?]
  | cons p rest ih =>
      by_cases h : p.1 = k
      · simp [alistModify, alistFind?, h]
      · simp [alistModify, alistFind?, h, ih]

theorem alistFind?_modify_ne {α : Type} (l : List (String × α))
    (k j : String) (f : α → α) (h : j ≠ k) :
    alistFind? (alistModify l k f) j = alistFind? l j := by
  induction l with
  | nil => simp [alistModify]
  | cons p rest ih =>
      by_cases hp : p.1 = k
      · simp [alistModify, alistFind?, hp, Ne.symm h]
      · by_cases hj : p.1 = j
        · simp [alistModify, alistFind?, hp, hj, h]
        · simp [alistModify, alistFind?, hp, hj, ih]

theorem alistModify_insert_self {α : Type} (l : List (String × α))
    (k : String) (v : α) (f : α → α) :
    alistModify (alistInsert l k v) k f = alistInsert l k (f v) := by
  induction l with
  | nil => simp [alistInsert, alistModify]
  | cons p rest ih =>
      by_cases h : p.1 = k
      · simp [alistInsert, alistModify, h]
      · simp [alistInsert, alistModify, h, ih]

theorem alistInsert_modify_self {α : Type} (l : List (String × α))
    (k : String) (v : α) (f : α → α) :
    alistInsert (alistModify l k f) k v = alistInsert l k v := by
  induction l with
  | nil => simp [alistInsert, alistModify]
  | cons p rest ih =>
      by_cases h : p.1 = k
      · simp [alistInsert, alistModify, h]
      · simp [alistInsert, alistModify, h, ih]

theorem alistModify_insert_ne {α : Type} (l : List (String × α))
    (k j : String) (v : α) (f : α → α) (h : j ≠ k) :
    alistModify (alistInsert l k v) j f = alistInsert (alistModify l j f) k v := by
  induction l with
  | nil => simp [alistInsert, alistModify, Ne.symm h]
  | cons p rest ih =>
      by_cases hp : p.1 = k
      · simp [alistInsert, alistModify, hp, Ne.symm h]
      · by_cases hj : p.1 = j
        · simp [alistInsert, alistModify, hp, hj, h]
        · simp [alistInsert, alistModify, hp, hj, ih]

/-- Flip the is_blocked flag of the chat stored under cid, leaving every
other field and chat alone; a no-op when the chat is absent. The chat core
never writes is_blocked outside its initialization to false. -/
def setBlocked (chats : ChatStore) (cid : String) (b : Bool) : ChatStore :=
  alistModify chats cid (fun c => { c with is_blocked := b })

theorem ack_store_setBlocked (chats : ChatStore) (cid : String) (b : Bool)
    (our mid : String) :
    ack_store (setBlocked chats cid b) our mid
      = setBlocked (ack_store chats our mid) cid b := by
  induction chats with
  | nil => rfl
  | cons kc rest ih =>
      obtain ⟨k, c⟩ := kc
      by_cases hk : k = cid
      · cases hupd : update_first_msg c.messages
            (fun m => m.id == mid && m.sender == our)
            (fun m =>
              { m with
                status := safe_update_message_status m.status .Delivered })
          with
        | none => simp [setBlocked, alistModify, ack_store, hk, hupd]
        | some msgs => simp [setBlocked, alistModify, ack_store, hk, hupd]
      · cases hupd : update_first_msg c.messages
            (fun m => m.id == mid && m.sender == our)
            (fun m =>
              { m with
                status := safe_update_message_status m.status .Delivered })
          with
        | none =>
            simpa [setBlocked, alistModify, ack_store, hk, hupd] using ih
        | some msgs => simp [setBlocked, alistModify, ack_store, hk, hupd]

/-- C10: inbound receipt is independent of is_blocked. For two stores that
differ only in one chat's is_blocked flag, receive_message performs the same
mutations (the results agree up to that same flag) and emits the identical
acknowledgment to the sender, and receive_message_ack likewise commutes with
flipping the flag — blocking a chat prevents neither receiving nor
acknowledging messages from that counterparty. -/
theorem c10_receive_independent_of_blocked (chats : ChatStore)
    (wsConns : List (Nat × String)) (our : String) (message : ChatMessage)
    (saveUrl : FileInfo → String) (cid : String) (b : Bool) (c : Chat)
    (mid : String) (hc : alistFind? chats cid = some c) :
    (receive_message (setBlocked chats cid b) wsConns our message saveUrl).1
        = setBlocked
            (receive_message chats wsConns our message saveUrl).1 cid b ∧
    (receive_message (setBlocked chats cid b) wsConns our message saveUrl).2.2
        = (receive_message chats wsConns our message saveUrl).2.2 ∧
    ack_store (setBlocked chats cid b) our mid
        = setBlocked (ack_store chats our mid) cid b := by
  refine ⟨?_, rfl, ack_store_setBlocked chats cid b our mid⟩
  have hfst : ∀ st : ChatStore,
      (receive_message st wsConns our message saveUrl).1
        = alistInsert st (normalize_chat_id message.sender our)
            (receive_message_chat st our message saveUrl) := fun _ => rfl
  rw [hfst (setBlocked chats cid b), hfst chats]
  by_cases hcn : cid = normalize_chat_id message.sender our
  · have hchat : receive_message_chat (setBlocked chats cid b) our message
          saveUrl
        = { receive_message_chat chats our message saveUrl with
            is_blocked := b } := by
      simp only [receive_message_chat, setBlocked]
      rw [← hcn, alistFind?_modify_self, hc]
      rfl
    rw [hchat, ← hcn]
    unfold setBlocked
    rw [alistInsert_modify_self, alistModify_insert_self]
  · have hchat : receive_message_chat (setBlocked chats cid b) our message
          saveUrl
        = receive_message_chat chats our message saveUrl := by
      simp only [receive_message_chat, setBlocked]
      rw [alistFind?_modify_ne chats cid _ _ (fun e => hcn e.symm)]
    rw [hchat]
    unfold setBlocked
    exact (alistModify_insert_ne chats _ cid _ _ hcn).symm

/-- Witness for c10_receive_independent_of_blocked: blocking the chat with
g.os commutes with receiving sample_message on node b.os. -/
theorem c10_receive_independent_of_blocked_witness :
    (receive_message
        (setBlocked [("b.os:g.os", new_chat "b.os:g.os" "g.os" 1)]
          "b.os:g.os" true)
        [] "b.os" sample_message (fun fi => fi.url)).1
      = setBlocked
          (receive_message [("b.os:g.os", new_chat "b.os:g.os" "g.os" 1)]
            [] "b.os" sample_message (fun fi => fi.url)).1
          "b.os:g.os" true ∧
    (receive_message
        (setBlocked [("b.os:g.os", new_chat "b.os:g.os" "g.os" 1)]
          "b.os:g.os" true)
        [] "b.os" sample_message (fun fi => fi.url)).2.2
      = (receive_message [("b.os:g.os", new_chat "b.os:g.os" "g.os" 1)]
          [] "b.os" sample_message (fun fi => fi.url)).2.2 ∧
    ack_store
        (setBlocked [("b.os:g.os", new_chat "b.os:g.os" "g.os" 1)]
          "b.os:g.os" true)
        "b.os" "100:7"
      = setBlocked
          (ack_store [("b.os:g.os", new_chat "b.os:g.os" "g.os" 1)]
            "b.os" "100:7")
          "b.os:g.os" true :=
  c10_receive_independent_of_blocked
    [("b.os:g.os", new_chat "b.os:g.os" "g.os" 1)] [] "b.os" sample_message
    (fun fi => fi.url) "b.os:g.os" true (new_chat "b.os:g.os" "g.os" 1)
    "100:7" rfl

/-- Queue mutation in the success branch of the delivery loops
(process_delivery_queue and the retry task spawned by initialize): retain
only the messages whose id differs from the delivered one and drop the
counterparty entry entirely when its list becomes empty. -/
def remove_on_success (q : DeliveryQueue) (node mid : String) : DeliveryQueue :=
  match alistFind? q node with
  | none => q
  | some msgs =>
      let kept := msgs.filter (fun m => m.id != mid)
      if kept.isEmpty then alistErase q node
      else alistModify q node (fun _ => kept)

/-- True when no counterparty entry of the queue maps to an empty list. -/
def queue_no_empty (q : DeliveryQueue) : Bool :=
  q.all (fun e => !e.2.isEmpty)

theorem alistFind?_erase_self {α : Type} (l : List (String × α)) (k : String) :
    alistFind? (alistErase l k) k = none := by
  induction l with
  | nil => simp [alistErase, alistFind?]
  | cons p rest ih =>
      by_cases h : p.1 = k
      · simpa [alistErase, alistFind?, h] using ih
      · simpa [alistErase, alistFind?, h] using ih

theorem alistFind?_erase_ne {α : Type} (l : List (String × α))
    (k j : String) (h : j ≠ k) :
    alistFind? (alistErase l k) j = alistFind? l j := by
  induction l with
  | nil => simp [alistErase]
  | cons p rest ih =>
      by_cases hp : p.1 = k
      · simpa [alistErase, alistFind?, hp, Ne.symm h] using ih
      · by_cases hj : p.1 = j
        · have hb : (p.1 != k) = true := by simp [hp]
          simp [alistErase, List.filter_cons, hb, alistFind?, hj, h]
        · simpa [alistErase, alistFind?, hp, hj] using ih

theorem queue_no_empty_erase (q : DeliveryQueue) (k : String)
    (h : queue_no_empty q = true) :
    queue_no_empty (alistErase q k) = true := by
  simp only [queue_no_empty, alistErase, List.all_eq_true] at h ⊢
  intro e he
  exact h e (List.mem_of_mem_filter he)

theorem queue_no_empty_modify (q : DeliveryQueue) (k : String)
    (f : List ChatMessage → List ChatMessage)
    (hf : ∀ ms, (f ms).isEmpty = false)
    (h : queue_no_empty q = true) :
    queue_no_empty (alistModify q k f) = true := by
  induction q with
  | nil => simpa [alistModify] using h
  | cons p rest ih =>
      simp only [queue_no_empty, List.all_cons, Bool.and_eq_true] at h
      by_cases hp : p.1 = k
      · simp only [alistModify, beq_iff_eq, if_pos hp]
        simp only [queue_no_empty, List.all_cons, Bool.and_eq_true]
        exact ⟨by simp [hf p.2], h.2⟩
      · simp only [alistModify, beq_iff_eq, if_neg hp]
        simp only [queue_no_empty, List.all_cons, Bool.and_eq_true]
        exact ⟨h.1, ih h.2⟩

/-- C7: successful delivery of a queued message removes exactly the messages
matching its id from that counterparty's entry (in particular the delivered
one), leaves every other counterparty's entry untouched, prunes the entry
when its list becomes empty, and — together with enqueue, which appends one
message — preserves the invariant that the queue never maps a counterparty to
an empty list. -/
theorem c7_remove_on_success (q : DeliveryQueue) (node mid : String) :
    (∀ k, k ≠ node →
      alistFind? (remove_on_success q node mid) k = alistFind? q k) ∧
    alistFind? (remove_on_success q node mid) node
      = (match alistFind? q node with
         | none => none
         | some ms =>
             let kept := ms.filter (fun m => m.id != mid)
             if kept.isEmpty then none else some kept) ∧
    (queue_no_empty q = true →
      queue_no_empty (remove_on_success q node mid) = true) ∧
    (queue_no_empty q = true → ∀ k m,
      queue_no_empty (queueEnqueue q k m) = true) := by
  refine ⟨?_, ?_, ?_, ?_⟩
  · intro k hk
    unfold remove_on_success
    cases hf : alistFind? q node with
    | none => rfl
    | some ms =>
        by_cases he : (ms.filter (fun m => m.id != mid)).isEmpty
        · simp only [he, if_pos]
          exact alistFind?_erase_ne q node k hk
        · simp only [he, if_neg, Bool.not_eq_true]
          exact alistFind?_modify_ne q node k _ hk
  · unfold remove_on_success
    cases hf : alistFind? q node with
    | none => simp [hf]
    | some ms =>
        by_cases he : (ms.filter (fun m => m.id != mid)).isEmpty
        · simp only [he, if_pos]
          simp [alistFind?_erase_self, he]
        · simp only [he, if_neg, Bool.not_eq_true]
          simp [alistFind?_modify_self, hf, he]
  · intro h
    unfold remove_on_success
    cases hf : alistFind? q node with
    | none => exact h
    | some ms =>
        by_cases he : (ms.filter (fun m => m.id != mid)).isEmpty
        · simp only [he, if_pos]
          exact queue_no_empty_erase q node h
        · simp only [he, if_neg, Bool.not_eq_true]
          exact queue_no_empty_modify q node _
            (fun _ => by simpa using he) h
  · intro h k m
    unfold queueEnqueue
    by_cases hc : alistContains q k = true
    · simp only [hc, if_pos]
      exact queue_no_empty_modify q k _ (fun ms => by simp) h
    · simp only [hc, if_neg, Bool.not_eq_true]
      simp only [queue_no_empty, List.all_append, List.all_cons] at h ⊢
      simp [h]

/-- Witness for c7_remove_on_success: delivering the only queued message for
b.os removes the b.os entry entirely and keeps the no-empty-entry invariant. -/
theorem c7_remove_on_success_witness :
    alistFind? (remove_on_success [("b.os", [sample_message])] "b.os" "100:7")
        "b.os" = none ∧
    queue_no_empty
        (remove_on_success [("b.os", [sample_message])] "b.os" "100:7")
      = true := by
  constructor
  · rw [(c7_remove_on_success [("b.os", [sample_message])] "b.os" "100:7").2.1]
    rfl
  · exact (c7_remove_on_success [("b.os", [sample_message])] "b.os"
      "100:7").2.2.1 (by decide)

/-- Find the first message with the given id (Vec::iter().find on m.id). -/
def find_by_id (msgs : List ChatMessage) (mid : String) : Option ChatMessage :=
  match msgs with
  | [] => none
  | m :: rest => if m.id == mid then some m else find_by_id rest mid

/-- Advance the status of the first message with the given id through the
status machine, as the send paths do after an attempt; no-op when absent. -/
def set_status_first (msgs : List ChatMessage) (mid : String)
    (st : MessageStatus) : List ChatMessage :=
  (update_first_msg msgs (fun m => m.id == mid)
    (fun m => { m with status := safe_update_message_status m.status st })).getD
    msgs

/-- Rust str::split(':') as a total function on character lists: the list of
colon-separated pieces, empty pieces included. -/
def split_colon (cs : List Char) : List (List Char) :=
  match cs with
  | [] => [[]]
  | c :: rest =>
      let r := split_colon rest
      if c = ':' then [] :: r
      else
        match r with
        | [] => [[c]]
        | piece :: more => (c :: piece) :: more

/-- chat_id.split(':').nth(1).unwrap_or("unknown"), the counterparty the
send paths derive for a chat created on the fly. -/
def counterparty_from_id (chatId : String) : String :=
  match (split_colon chatId.toList).get? 1 with
  | some cs => String.mk cs
  | none => "unknown"

/-- The counterparty a send resolves for a chat id: the stored chat's
counterparty field when the chat exists, else derived from the id. -/
def send_counterparty (chats : ChatStore) (chatId : String) : String :=
  match alistFind? chats chatId with
  | some chat => chat.counterparty
  | none => counterparty_from_id chatId

/-- Rust str::starts_with on character lists (String.starts_with). -/
def list_starts (pre s : List Char) : Bool :=
  match pre, s with
  | [], _ => true
  | _ :: _, [] => false
  | c :: cs, d :: ds => c == d && list_starts cs ds

/-- The fresh text message send_message builds: id "{timestamp}:{rand}",
local sender, status Sending. -/
def mk_text_message (our content : String) (replyTo : Option String)
    (ts randVal : Nat) : ChatMessage :=
  { id := s!"{ts}:{randVal}", sender := our, content := content,
    timestamp := ts, status := .Sending, reply_to := replyTo,
    reactions := [], message_type := .Text, file_info := none }

/-- HTTP/local handler send_message: builds a Sending message, resolves or
creates the chat (deriving the counterparty from the chat id for a fresh
chat), appends the message, immediately advances the stored copy to Sent,
fans a ChatUpdate out to node sessions, and spawns a delivery attempt whose
failure branch appends the original message (still status Sending) to the
counterparty's delivery-queue entry; the failure branch never touches the
stored message's status. deliveryOk is the network oracle; the returned
message is re-read from the store. -/
def send_message (chats : ChatStore) (q : DeliveryQueue)
    (wsConns : List (Nat × String)) (our chatId content : String)
    (replyTo : Option String) (ts randVal : Nat) (deliveryOk : Bool) :
    ChatStore × DeliveryQueue × List (Nat × WsServerMessage) × ChatMessage :=
  let message := mk_text_message our content replyTo ts randVal
  let base := (alistFind? chats chatId).getD
    (new_chat chatId (counterparty_from_id chatId) ts)
  let chat1 := { base with
    messages := base.messages ++ [message], last_activity := ts }
  let chat2 := { chat1 with
    messages := set_status_first chat1.messages message.id .Sent }
  let chats' := alistInsert chats chatId chat2
  let pushes := wsConns.map (fun p => (p.1, WsServerMessage.ChatUpdate chat2))
  let q' := if deliveryOk then q
    else queueEnqueue q base.counterparty message
  let ret := (find_by_id chat2.messages message.id).getD message
  (chats', q', pushes, ret)

/-- The fresh Sending copy forward_message builds from the source message:
clock-and-rand id, local sender, "Forwarded: " content prefix, the source's
message type and file info. -/
def mk_forward_message (our : String) (original : ChatMessage)
    (ts randVal : Nat) : ChatMessage :=
  { id := s!"{ts}:{randVal}", sender := our,
    content := "Forwarded: " ++ original.content, timestamp := ts,
    status := .Sending, reply_to := none, reactions := [],
    message_type := original.message_type, file_info := original.file_info }

/-- HTTP handler forward_message: looks up the source message (an error with
no state change when absent), builds a fresh Sending copy whose content is
prefixed with "Forwarded: ", appends it to the destination chat (created
when absent), and — unless the destination is a browser chat — attempts
delivery: success advances the stored copy to Sent and fans out a
ChatUpdate; failure appends the copy (status Sending) to the counterparty's
queue entry and advances the stored copy to Failed. The handler returns the
local copy (built with status Sending) in every non-error branch. -/
def forward_message (chats : ChatStore) (q : DeliveryQueue)
    (wsConns : List (Nat × String)) (our fromChatId mid toChatId : String)
    (ts randVal : Nat) (deliveryOk : Bool) :
    Except String
      (ChatStore × DeliveryQueue × List (Nat × WsServerMessage) ×
        ChatMessage) :=
  match (alistFind? chats fromChatId).bind
      (fun c => find_by_id c.messages mid) with
  | none => Except.error "Message not found"
  | some original =>
      let fwd := mk_forward_message our original ts randVal
      let base := (alistFind? chats toChatId).getD
        (new_chat toChatId (counterparty_from_id toChatId) ts)
      let chat1 := { base with
        messages := base.messages ++ [fwd], last_activity := ts }
      let chats1 := alistInsert chats toChatId chat1
      if list_starts "browser:".toList toChatId.toList then
        Except.ok (chats1, q, [], fwd)
      else if deliveryOk then
        let chat2 := { chat1 with
          messages := set_status_first chat1.messages fwd.id .Sent }
        Except.ok (alistInsert chats1 toChatId chat2, q,
          wsConns.map (fun p => (p.1, WsServerMessage.ChatUpdate chat2)), fwd)
      else
        let q' := queueEnqueue q base.counterparty fwd
        let chat2 := { chat1 with
          messages := set_status_first chat1.messages fwd.id .Failed }
        Except.ok (alistInsert chats1 toChatId chat2, q', [], fwd)

/-- Status of the message with the given id inside the chat with the given
id, when both exist. -/
def chat_msg_status (chats : ChatStore) (cid mid : String) :
    Option MessageStatus :=
  (alistFind? chats cid).bind
    (fun c => (find_by_id c.messages mid).map (fun m => m.status))

theorem alistContains_eq_isSome {α : Type} (l : List (String × α))
    (k : String) : alistContains l k = (alistFind? l k).isSome := by
  induction l with
  | nil => simp [alistContains, alistFind?]
  | cons p rest ih =>
      by_cases h : p.1 = k
      · simp [alistContains, alistFind?, h]
      · have hb : (p.1 == k) = false := by simp [h]
        simpa [alistContains, alistFind?, hb] using ih

theorem alistFind?_append {α : Type} (l1 l2 : List (String × α)) (k : String) :
    alistFind? (l1 ++ l2) k
      = match alistFind? l1 k with
        | some v => some v
        | none => alistFind? l2 k := by
  induction l1 with
  | nil => simp [alistFind?]
  | cons p rest ih =>
      by_cases h : p.1 = k
      · simp [alistFind?, h]
      · simp [alistFind?, h, ih]

theorem queueEnqueue_lookup (q : DeliveryQueue) (k : String)
    (m : ChatMessage) :
    alistFind? (queueEnqueue q k m)
      k = some ((alistFind? q k).getD [] ++ [m]) := by
  unfold queueEnqueue
  by_cases hc : alistContains q k = true
  · rw [if_pos hc, alistFind?_modify_self]
    rcases hs : alistFind? q k with _ | v
    · rw [alistContains_eq_isSome, hs] at hc
      simp at hc
    · simp
  · rw [if_neg hc, alistFind?_append]
    have hn : alistFind? q k = none := by
      rw [alistContains_eq_isSome] at hc
      rcases hs : alistFind? q k with _ | v
      · rfl
      · rw [hs] at hc
        simp at hc
    rw [hn]
    simp [alistFind?]

theorem update_first_msg_append_fresh (msgs : List ChatMessage)
    (m : ChatMessage) (p : ChatMessage → Bool) (f : ChatMessage → ChatMessage)
    (h : msgs.any p = false) (hm : p m = true) :
    update_first_msg (msgs ++ [m]) p f = some (msgs ++ [f m]) := by
  induction msgs with
  | nil => simp [update_first_msg, hm]
  | cons m0 rest ih =>
      simp only [List.any_cons, Bool.or_eq_false_iff] at h
      simp [update_first_msg, h.1, ih h.2]

theorem find_by_id_eq_none_iff (msgs : List ChatMessage) (mid : String) :
    find_by_id msgs mid = none
      ↔ msgs.any (fun m => m.id == mid) = false := by
  induction msgs with
  | nil => simp [find_by_id]
  | cons m rest ih =>
      by_cases h : m.id = mid
      · simp [find_by_id, h]
      · simp [find_by_id, h, ih]

theorem find_by_id_append_fresh (msgs : List ChatMessage) (m' : ChatMessage)
    (mid : String) (h : find_by_id msgs mid = none)
    (hm : (m'.id == mid) = true) :
    find_by_id (msgs ++ [m']) mid = some m' := by
  induction msgs with
  | nil => simp [find_by_id, hm]
  | cons m0 rest ih =>
      rw [find_by_id] at h
      by_cases h0 : m0.id = mid
      · simp [h0] at h
      · have hrest : find_by_id rest mid = none := by simpa [h0] using h
        simp [find_by_id, h0, ih hrest]

theorem set_status_first_append_fresh (msgs : List ChatMessage)
    (m : ChatMessage) (st : MessageStatus)
    (h : find_by_id msgs m.id = none) :
    set_status_first (msgs ++ [m]) m.id st
      = msgs ++ [{ m with status := safe_update_message_status m.status st }]
    := by
  unfold set_status_first
  rw [update_first_msg_append_fresh msgs m _ _
    ((find_by_id_eq_none_iff msgs m.id).mp h) (by simp)]
  rfl

theorem status_after_send (msgs : List ChatMessage) (m : ChatMessage)
    (st : MessageStatus) (h : find_by_id msgs m.id = none) :
    find_by_id (set_status_first (msgs ++ [m]) m.id st) m.id
      = some { m with status := safe_update_message_status m.status st } := by
  rw [set_status_first_append_fresh msgs m st h]
  exact find_by_id_append_fresh msgs _ m.id h (by simp)

/-- C2 counterexample: sending "hi" from a.os to the unreachable b.os
(delivery oracle false) leaves the stored message at status Sent, not the
Failed the claim requires, even though the message is queued for b.os. -/
theorem c2_send_failure_not_failed :
    chat_msg_status (send_message [] [] [] "a.os" "a.os:b.os" "hi" none
        100 7 false).1 "a.os:b.os" "100:7" = some MessageStatus.Sent ∧
    some MessageStatus.Sent ≠ some MessageStatus.Failed ∧
    (alistFind? (send_message [] [] [] "a.os" "a.os:b.os" "hi" none
          100 7 false).2.1 "b.os").map (fun ms => ms.map (fun m => m.id))
      = some ["100:7"] := by
  refine ⟨rfl, by decide, rfl⟩

/-- The state forward_message leaves when delivery to a non-browser chat
fails: the forwarded copy appended to the destination chat and marked
Failed, and the copy (status Sending) queued for the counterparty. -/
def forward_message_failed_result (chats2 : ChatStore) (q2 : DeliveryQueue)
    (our2 : String) (original : ChatMessage) (toChatId : String)
    (ts2 rv2 : Nat) :
    ChatStore × DeliveryQueue × List (Nat × WsServerMessage) × ChatMessage :=
  let fwd := mk_forward_message our2 original ts2 rv2
  let base := (alistFind? chats2 toChatId).getD
    (new_chat toChatId (counterparty_from_id toChatId) ts2)
  let chat1 := { base with
                 messages := base.messages ++ [fwd], last_activity := ts2 }
  let chat2 := { chat1 with
                 messages := set_status_first chat1.messages fwd.id .Failed }
  (alistInsert (alistInsert chats2 toChatId chat1) toChatId chat2,
    queueEnqueue q2 base.counterparty fwd, [], fwd)

theorem chat_msg_status_insert (chats : ChatStore) (cid : String) (c : Chat)
    (mid : String) :
    chat_msg_status (alistInsert chats cid c) cid mid
      = (find_by_id c.messages mid).map (fun m => m.status) := by
  rw [chat_msg_status, alistFind?_insert_self]
  rfl

/-- C2 (amended): a send attempt that cannot reach the counterparty always
appends the attempted message to that counterparty's delivery-queue entry;
forward_message additionally marks the stored copy Failed, but send_message
leaves the stored message at Sent — its spawned delivery task only reaches
the queue, never the chat store, so the failure is not reflected in the
stored status. Freshness of the generated clock-and-rand id inside the
target chat is assumed. -/
theorem c2_failed_send_queues (chats : ChatStore) (q : DeliveryQueue)
    (wsConns : List (Nat × String)) (our chatId content : String)
    (replyTo : Option String) (ts rv : Nat)
    (chats2 : ChatStore) (q2 : DeliveryQueue)
    (wsConns2 : List (Nat × String))
    (our2 fromChatId mid toChatId : String) (ts2 rv2 : Nat)
    (original : ChatMessage)
    (hfresh : chat_msg_status chats chatId
      (mk_text_message our content replyTo ts rv).id = none)
    (horig : (alistFind? chats2 fromChatId).bind
        (fun c => find_by_id c.messages mid) = some original)
    (hbrowser : list_starts "browser:".toList toChatId.toList = false)
    (hfresh2 : chat_msg_status chats2 toChatId
      (mk_forward_message our2 original ts2 rv2).id = none) :
    alistFind? (send_message chats q wsConns our chatId content replyTo ts rv
        false).2.1 (send_counterparty chats chatId)
      = some ((alistFind? q (send_counterparty chats chatId)).getD []
          ++ [mk_text_message our content replyTo ts rv]) ∧
    chat_msg_status (send_message chats q wsConns our chatId content replyTo
        ts rv false).1 chatId (mk_text_message our content replyTo ts rv).id
      = some MessageStatus.Sent ∧
    ∃ r, forward_message chats2 q2 wsConns2 our2 fromChatId mid toChatId ts2
        rv2 false = Except.ok r ∧
      alistFind? r.2.1 (send_counterparty chats2 toChatId)
        = some ((alistFind? q2 (send_counterparty chats2 toChatId)).getD []
            ++ [mk_forward_message our2 original ts2 rv2]) ∧
      chat_msg_status r.1 toChatId
          (mk_forward_message our2 original ts2 rv2).id
        = some MessageStatus.Failed := by
  have hcp : ∀ (st : ChatStore) (cid : String) (t : Nat),
      ((alistFind? st cid).getD
        (new_chat cid (counterparty_from_id cid) t)).counterparty
      = send_counterparty st cid := by
    intro st cid t
    unfold send_counterparty
    cases hf : alistFind? st cid <;> simp [hf, new_chat]
  have hfm : find_by_id ((alistFind? chats chatId).getD
      (new_chat chatId (counterparty_from_id chatId) ts)).messages
      (mk_text_message our content replyTo ts rv).id = none := by
    cases hf : alistFind? chats chatId with
    | none => simp [new_chat, find_by_id]
    | some c =>
        cases hfind : find_by_id c.messages
            (mk_text_message our content replyTo ts rv).id with
        | none => exact hfind
        | some m =>
            exfalso
            rw [chat_msg_status, hf] at hfresh
            have hfresh' : (find_by_id c.messages
                (mk_text_message our content replyTo ts rv).id).map
                (fun m => m.status) = none := hfresh
            rw [hfind] at hfresh'
            simp at hfresh'
  have hfm2 : find_by_id ((alistFind? chats2 toChatId).getD
      (new_chat toChatId (counterparty_from_id toChatId) ts2)).messages
      (mk_forward_message our2 original ts2 rv2).id = none := by
    cases hf : alistFind? chats2 toChatId with
    | none => simp [new_chat, find_by_id]
    | some c =>
        cases hfind : find_by_id c.messages
            (mk_forward_message our2 original ts2 rv2).id with
        | none => exact hfind
        | some m =>
            exfalso
            rw [chat_msg_status, hf] at hfresh2
            have hfresh' : (find_by_id c.messages
                (mk_forward_message our2 original ts2 rv2).id).map
                (fun m => m.status) = none := hfresh2
            rw [hfind] at hfresh'
            simp at hfresh'
  refine ⟨?_, ?_, ?_⟩
  · have hq : (send_message chats q wsConns our chatId content replyTo ts rv
        false).2.1
        = queueEnqueue q
            (((alistFind? chats chatId).getD
              (new_chat chatId (counterparty_from_id chatId)
                ts)).counterparty)
            (mk_text_message our content replyTo ts rv) := rfl
    rw [hq, hcp chats chatId ts, queueEnqueue_lookup]
  · have hst : (send_message chats q wsConns our chatId content replyTo ts rv
        false).1
        = alistInsert chats chatId
            { (alistFind? chats chatId).getD
                (new_chat chatId (counterparty_from_id chatId) ts) with
              messages := set_status_first
                (((alistFind? chats chatId).getD
                  (new_chat chatId (counterparty_from_id chatId)
                    ts)).messages
                  ++ [mk_text_message our content replyTo ts rv])
                (mk_text_message our content replyTo ts rv).id .Sent,
              last_activity := ts } := rfl
    rw [hst, chat_msg_status_insert]
    have hshow : (find_by_id (set_status_first
        (((alistFind? chats chatId).getD
          (new_chat chatId (counterparty_from_id chatId) ts)).messages
          ++ [mk_text_message our content replyTo ts rv])
        (mk_text_message our content replyTo ts rv).id .Sent)
        (mk_text_message our content replyTo ts rv).id).map
        (fun m => m.status) = some MessageStatus.Sent := by
      rw [status_after_send _ _ _ hfm]
      rfl
    exact hshow
  · have hfwd : forward_message chats2 q2 wsConns2 our2 fromChatId mid
        toChatId ts2 rv2 false
        = Except.ok (forward_message_failed_result chats2 q2 our2 original
            toChatId ts2 rv2) := by
      unfold forward_message forward_message_failed_result
      rw [horig]
      simp only [hbrowser, Bool.false_eq_true, if_false]
    refine ⟨forward_message_failed_result chats2 q2 our2 original toChatId
      ts2 rv2, hfwd, ?_, ?_⟩
    · have hq2 : (queueEnqueue q2
          (((alistFind? chats2 toChatId).getD
            (new_chat toChatId (counterparty_from_id toChatId)
              ts2)).counterparty)
          (mk_forward_message our2 original ts2 rv2))
          = queueEnqueue q2 (send_counterparty chats2 toChatId)
            (mk_forward_message our2 original ts2 rv2) := by
        rw [hcp chats2 toChatId ts2]
      show alistFind? (queueEnqueue q2
          (((alistFind? chats2 toChatId).getD
            (new_chat toChatId (counterparty_from_id toChatId)
              ts2)).counterparty)
          (mk_forward_message our2 original ts2 rv2))
          (send_counterparty chats2 toChatId) = _
      rw [hq2, queueEnqueue_lookup]
    · show chat_msg_status (alistInsert
          (alistInsert chats2 toChatId _) toChatId
          { (alistFind? chats2 toChatId).getD
              (new_chat toChatId (counterparty_from_id toChatId) ts2) with
            messages := set_status_first
              (((alistFind? chats2 toChatId).getD
                (new_chat toChatId (counterparty_from_id toChatId)
                  ts2)).messages
                ++ [mk_forward_message our2 original ts2 rv2])
              (mk_forward_message our2 original ts2 rv2).id .Failed,
            last_activity := ts2 }) toChatId
          (mk_forward_message our2 original ts2 rv2).id
        = some MessageStatus.Failed
      rw [chat_msg_status_insert]
      rw [status_after_send _ _ _ hfm2]
      rfl

/-- A sample chat between a.os and b.os holding sample_message, used by
witnesses. -/
def sample_chat : Chat :=
  { id := "a.os:b.os", counterparty := "b.os", messages := [sample_message],
    last_activity := 100, unread_count := 0, is_blocked := false,
    notify := true }

/-- Witness for c2_failed_send_queues: a failed plain send queues the
message and leaves it Sent; a failed forward queues the copy and marks it
Failed. -/
theorem c2_failed_send_queues_witness :
    alistFind? (send_message [] [] [] "a.os" "a.os:b.os" "hi" none 100 7
        false).2.1 (send_counterparty [] "a.os:b.os")
      = some ((alistFind? ([] : DeliveryQueue)
            (send_counterparty [] "a.os:b.os")).getD []
          ++ [mk_text_message "a.os" "hi" none 100 7]) ∧
    chat_msg_status (send_message [] [] [] "a.os" "a.os:b.os" "hi" none 100 7
        false).1 "a.os:b.os" (mk_text_message "a.os" "hi" none 100 7).id
      = some MessageStatus.Sent ∧
    ∃ r, forward_message [("a.os:b.os", sample_chat)] [] [] "a.os"
        "a.os:b.os" "100:7" "a.os:c.os" 200 9 false = Except.ok r ∧
      alistFind? r.2.1 (send_counterparty [("a.os:b.os", sample_chat)]
          "a.os:c.os")
        = some ((alistFind? ([] : DeliveryQueue)
              (send_counterparty [("a.os:b.os", sample_chat)]
                "a.os:c.os")).getD []
            ++ [mk_forward_message "a.os" sample_message 200 9]) ∧
      chat_msg_status r.1 "a.os:c.os"
          (mk_forward_message "a.os" sample_message 200 9).id
        = some MessageStatus.Failed :=
  c2_failed_send_queues [] [] [] "a.os" "a.os:b.os" "hi" none 100 7
    [("a.os:b.os", sample_chat)] [] [] "a.os" "a.os:b.os" "100:7"
    "a.os:c.os" 200 9 sample_message rfl rfl (by decide) rfl

/-- The mod rand at the bottom of lib.rs: rand::random::<u32>() returns the
current clock reading in nanoseconds cast to u32 — a pure function of the
time source, not a cryptographic random source. -/
def rand_random_u32 (nanos : Nat) : Nat := nanos % 2 ^ 32

/-- Key generation in create_chat_link: format!("{:x}", rand::random::<u128>()),
the u128 widening of the u32 clock value printed as lowercase hex. -/
def create_chat_link_key (nanos : Nat) : String :=
  String.mk (Nat.toDigits 16 (rand_random_u32 nanos))

/-- Message-id generation at the send sites:
format!("{}:{}", unix_seconds, rand::random::<u32>()). -/
def message_id_of_clock (secs nanos : Nat) : String :=
  s!"{secs}:{rand_random_u32 nanos}"

/-- C9 evaluation at the failing input: chat keys and message ids are
deterministic, predictable functions of the clock reading — any two
generation calls that observe nanosecond reading 255 produce the identical
key "ff" (the hex of the clock value), and the message id is the clock pair
verbatim; nothing in the generation depends on a random source. -/
theorem c9_keygen_is_clock :
    create_chat_link_key 255 = "ff" ∧
    rand_random_u32 255 = 255 ∧
    message_id_of_clock 100 255 = "100:255" := by
  refine ⟨rfl, rfl, rfl⟩

/-- Client-to-server WebSocket frames, from enum WsClientMessage. -/
inductive WsClientMessage where
  | SendMessage (chat_id content : String) (reply_to : Option String)
  | Ack (message_id : String)
  | MarkRead (chat_id : String)
  | UpdateStatus (status : String)
  | AuthWithKey (chat_key : String)
  | BrowserMessage (content : String)
  | Heartbeat
deriving DecidableEq

/-- The session-multiplexer state: the fields of ChatState the websocket
handler reads and writes (profile and settings are untouched by it). -/
structure WsState where
  chats : ChatStore
  chat_keys : List (String × ChatKey)
  delivery_queue : DeliveryQueue
  online_nodes : List String
  ws_connections : List (Nat × String)
  browser_connections : List (String × Nat)
  active_connections : List Nat
deriving DecidableEq

/-- HashMap contains_key for the channel-keyed node-session map. -/
def wsContains (conns : List (Nat × String)) (ch : Nat) : Bool :=
  conns.any (fun p => p.1 == ch)

/-- HashMap insert for the channel-keyed node-session map. -/
def wsInsert (conns : List (Nat × String)) (ch : Nat) (v : String) :
    List (Nat × String) :=
  match conns with
  | [] => [(ch, v)]
  | p :: rest => if p.1 == ch then (ch, v) :: rest else p :: wsInsert rest ch v

/-- HashMap get for the channel-keyed node-session map. -/
def wsFind? (conns : List (Nat × String)) (ch : Nat) : Option String :=
  (conns.find? (fun p => p.1 == ch)).map (fun p => p.2)

/-- The message a guest browser session stores: sender is the key's guest
alias and the status starts at Sent. -/
def mk_browser_message (user_name content : String) (ts rv : Nat) :
    ChatMessage :=
  { id := s!"{ts}:{rv}", sender := user_name, content := content,
    timestamp := ts, status := .Sent, reply_to := none, reactions := [],
    message_type := .Text, file_info := none }

/-- The WsClientMessage::Ack branch of handle_client_message: advance the
first message with the acked id (any sender) in the first chat holding one
to Delivered via the status machine. -/
def client_ack_store (chats : ChatStore) (mid : String) : ChatStore :=
  match chats with
  | [] => []
  | (k, c) :: rest =>
      match update_first_msg c.messages (fun m => m.id == mid)
          (fun m =>
            { m with status := safe_update_message_status m.status .Delivered })
        with
      | some msgs => (k, { c with messages := msgs }) :: rest
      | none => (k, c) :: client_ack_store rest mid

/-- fn handle_browser_message: AuthWithKey looks the key up — unknown or
revoked keys get an AuthFailed reply and change nothing; a valid key binds
the channel in browser_connections and replies AuthSuccess with the bound
chat's history. BrowserMessage appends a guest message to the bound chat
(resolved through the first browser_connections entry for the channel).
Heartbeat echoes; node-session frames are ignored. -/
def handle_browser_message (st : WsState) (channel : Nat)
    (msg : WsClientMessage) (ts rv : Nat) :
    WsState × List (Nat × WsServerMessage) :=
  match msg with
  | .AuthWithKey chat_key =>
      match alistFind? st.chat_keys chat_key with
      | some key_data =>
          if !key_data.is_revoked then
            let history :=
              ((alistFind? st.chats key_data.chat_id).map
                (fun c => c.messages)).getD []
            ({ st with browser_connections :=
                alistInsert st.browser_connections chat_key channel },
              [(channel,
                WsServerMessage.AuthSuccess key_data.chat_id history)])
          else
            (st, [(channel,
              WsServerMessage.AuthFailed "Chat key has been revoked")])
      | none =>
          (st, [(channel, WsServerMessage.AuthFailed "Invalid chat key")])
  | .BrowserMessage content =>
      match st.browser_connections.find? (fun p => p.2 == channel) with
      | some entry =>
          match alistFind? st.chat_keys entry.1 with
          | some key_data =>
              let message := mk_browser_message key_data.user_name content
                ts rv
              let base := (alistFind? st.chats key_data.chat_id).getD
                (new_chat key_data.chat_id key_data.user_name ts)
              let chat' := { base with
                messages := base.messages ++ [message],
                last_activity := ts,
                unread_count := base.unread_count + 1 }
              ({ st with chats :=
                  alistInsert st.chats key_data.chat_id chat' },
                [(channel, WsServerMessage.NewMessage message)])
          | none => (st, [])
      | none => (st, [])
  | .Heartbeat => (st, [(channel, WsServerMessage.Heartbeat)])
  | _ => (st, [])

/-- fn handle_client_message (node sessions): SendMessage appends to an
existing chat, fans the new message to the counterparty's live channel when
it is online or queues it otherwise, advances the stored copy to Sent,
replies with a ChatUpdate and a MessageAck (the ack alone when the chat is
unknown); Ack advances the acked message; MarkRead zeroes the unread count;
UpdateStatus tracks the active set and broadcasts to every node session;
Heartbeat echoes; browser frames are ignored. -/
def handle_client_message (st : WsState) (our : String) (channel : Nat)
    (msg : WsClientMessage) (ts rv : Nat) :
    WsState × List (Nat × WsServerMessage) :=
  match msg with
  | .SendMessage chat_id content reply_to =>
      let sender := (wsFind? st.ws_connections channel).getD our
      let message := mk_text_message sender content reply_to ts rv
      match alistFind? st.chats chat_id with
      | some chat =>
          let counterparty := chat.counterparty
          let chat1 := { chat with
            messages := chat.messages ++ [message], last_activity := ts }
          let online := st.online_nodes.contains counterparty
          let fan :=
            if online then
              match st.ws_connections.find?
                  (fun p => p.2 == counterparty) with
              | some pc => [(pc.1, WsServerMessage.NewMessage message)]
              | none => []
            else []
          let q' := if online then st.delivery_queue
            else queueEnqueue st.delivery_queue counterparty message
          let chat2 := { chat1 with
            messages := set_status_first chat1.messages message.id .Sent }
          let st' := { st with
                       chats := alistInsert st.chats chat_id chat2,
                       delivery_queue := q' }
          (st', fan ++ [(channel, WsServerMessage.ChatUpdate chat2),
            (channel, WsServerMessage.MessageAck message.id)])
      | none =>
          (st, [(channel, WsServerMessage.MessageAck message.id)])
  | .Ack message_id =>
      ({ st with chats := client_ack_store st.chats message_id }, [])
  | .MarkRead chat_id =>
      let chats' := alistModify st.chats chat_id
        (fun c => { c with unread_count := 0 })
      ({ st with chats := chats' }, [])
  | .UpdateStatus status =>
      let acts :=
        if status == "active" then
          if st.active_connections.contains channel then
            st.active_connections
          else st.active_connections ++ [channel]
        else if status == "inactive" then
          st.active_connections.filter (fun c => c != channel)
        else st.active_connections
      let pushes :=
        match wsFind? st.ws_connections channel with
        | some node => st.ws_connections.map
            (fun p => (p.1, WsServerMessage.StatusUpdate node status))
        | none => []
      ({ st with active_connections := acts }, pushes)
  | .Heartbeat => (st, [(channel, WsServerMessage.Heartbeat)])
  | _ => (st, [])

/-- The Text branch of the #[ws] websocket handler for a successfully parsed
client frame. Before any classification, a channel registered in neither
ws_connections nor browser_connections is inserted into ws_connections bound
to the local node identity and is sent a ChatUpdate for every chat in the
store; only then is the frame dispatched — an AuthWithKey frame, or any
frame on a channel already bound in browser_connections, goes to
handle_browser_message, and everything else to handle_client_message. -/
def websocket_text (st : WsState) (our : String) (channel : Nat)
    (msg : WsClientMessage) (ts rv : Nat) :
    WsState × List (Nat × WsServerMessage) :=
  let isNew := !(wsContains st.ws_connections channel)
    && !(st.browser_connections.any (fun p => p.2 == channel))
  let st1 := if isNew then
      { st with ws_connections := wsInsert st.ws_connections channel our }
    else st
  let initPushes := if isNew then
      st.chats.map (fun kc => (channel, WsServerMessage.ChatUpdate kc.2))
    else []
  let next :=
    match msg with
    | .AuthWithKey _ => handle_browser_message st1 channel msg ts rv
    | _ =>
        if st1.browser_connections.any (fun p => p.2 == channel) then
          handle_browser_message st1 channel msg ts rv
        else handle_client_message st1 our channel msg ts rv
  (next.1, initPushes ++ next.2)

/-- A valid (unrevoked) chat key for the browser chat browser:k1. -/
def sample_key : ChatKey :=
  { key := "k1", user_name := "Guest-1", created_at := 50,
    is_revoked := false, chat_id := "browser:k1" }

/-- A node state with one ordinary chat, one valid chat key and no
connections, used as the C1 failing input. -/
def c1_state : WsState :=
  { chats := [("a.os:b.os", sample_chat)], chat_keys := [("k1", sample_key)],
    delivery_queue := [], online_nodes := [], ws_connections := [],
    browser_connections := [], active_connections := [] }

/-- C1 failing run: a fresh channel (7) whose very first inbound frame is an
authentication request carrying a valid chat key is nevertheless first
registered in ws_connections as a node session and pushed the all-chats
snapshot, and only then bound as a guest — the run ends with channel 7
present in both ws_connections and browser_connections, violating the
claimed exclusive classification, the guest's exclusion from ws_connections,
and its isolation from the node-session snapshot. -/
theorem c1_guest_channel_in_both_maps :
    (websocket_text c1_state "b.os" 7 (.AuthWithKey "k1") 100
        7).1.ws_connections = [(7, "b.os")] ∧
    (websocket_text c1_state "b.os" 7 (.AuthWithKey "k1") 100
        7).1.browser_connections = [("k1", 7)] ∧
    (websocket_text c1_state "b.os" 7 (.AuthWithKey "k1") 100 7).2
      = [(7, WsServerMessage.ChatUpdate sample_chat),
         (7, WsServerMessage.AuthSuccess "browser:k1" [])] := by
  refine ⟨rfl, rfl, rfl⟩
